import Mathlib

/-!
Shallow embedding of the publish pipeline of `Spec-Bench/upload_results.py`
(the cringebench repository): the metrics aggregator
(`MLflowLogger._parse_benchmark_results`), branch-name sanitization
(`sanitize_branch_name`), the versioned-store operations
(`LakeFSUploader.create_branch`), tracker initialization
(`MLflowLogger.__init__`), the batch orchestrator
(`upload_benchmark_results`) and the process entry point (`main`).

Numbers are modelled as rationals (Python floats with exact arithmetic);
remote I/O outcomes are modelled as explicit environment records, so that
each Python function becomes a total Lean function of its inputs and of
the outcomes the outside world hands it.
-/

/-- One entry of the `choices` array of a benchmark record: each metric
array is optional (`upload_results.py` lines 293-307 test key presence). -/
structure Choice where
  wall_time : Option (List ℚ) := none
  decoding_steps : Option (List ℚ) := none
  new_tokens : Option (List ℚ) := none
  accept_lengths : Option (List ℚ) := none
deriving DecidableEq, Repr

/-- One benchmark record (one JSON line).  `choices := none` models a JSON
object without a `choices` key, for which the source substitutes the
default `[{}]` (line 289). -/
structure Record where
  choices : Option (List Choice) := none
deriving DecidableEq, Repr

/-- `result.get('choices', [{}])` followed by `if choices: choice = choices[0]`
(lines 289-291): a missing key yields the empty choice, an explicitly empty
list is falsy and skips the record, otherwise the first entry is consulted. -/
def firstChoice (r : Record) : Option Choice :=
  match r.choices with
  | none => some {}
  | some [] => none
  | some (c :: _) => some c

/-- Flatten one optional metric array across all records, in record order
(the `extend` calls of lines 293-307): a record whose first choice lacks
the key contributes nothing. -/
def extractField (f : Choice → Option (List ℚ)) (results : List Record) : List ℚ :=
  results.foldl (fun acc r =>
    match firstChoice r with
    | none => acc
    | some c =>
      match f c with
      | none => acc
      | some xs => acc ++ xs) []

/-- Python `max` over a non-empty list (the `[]` case is never reached by
the guarded call sites). -/
def listMax : List ℚ → ℚ
  | [] => 0
  | x :: xs => xs.foldl max x

/-- Python `min` over a non-empty list. -/
def listMin : List ℚ → ℚ
  | [] => 0
  | x :: xs => xs.foldl min x

/-- Per-sample tokens-per-second list (line 326):
`[nt / wt if wt > 0 else 0 for nt, wt in zip(new_tokens, wall_times)]`. -/
def tokensPerSec (new_tokens wall_times : List ℚ) : List ℚ :=
  (new_tokens.zip wall_times).map fun p => if 0 < p.2 then p.1 / p.2 else 0

/-- The derived metric set of one benchmark file.  In the source it is a
dict keyed by `{benchmark_name}_{metric}`; the benchmark-name prefix is
uniform across one invocation, so the mapping is modelled as a record of
optional values, `none` meaning the key is absent. -/
structure Metrics where
  total_questions : Option ℚ := none
  avg_wall_time : Option ℚ := none
  total_wall_time : Option ℚ := none
  max_wall_time : Option ℚ := none
  min_wall_time : Option ℚ := none
  avg_decoding_steps : Option ℚ := none
  total_decoding_steps : Option ℚ := none
  avg_new_tokens : Option ℚ := none
  total_new_tokens : Option ℚ := none
  avg_tokens_per_sec : Option ℚ := none
  max_tokens_per_sec : Option ℚ := none
  avg_accept_length : Option ℚ := none
  max_accept_length : Option ℚ := none
  acceptance_rate : Option ℚ := none
deriving DecidableEq, Repr

/-- The empty metric mapping `{}`. -/
def emptyMetrics : Metrics := {}

/-- Lines 275-337 of `_parse_benchmark_results`: metric derivation from an
already-parsed record list.  Each statistic is emitted only when its
flattened array is non-empty; `tokens_per_sec` additionally requires
`wall_times` non-empty and of the same length as `new_tokens` (line 325);
the inner `len(accept_lengths) > 0` guard of line 335 is always true under
the enclosing `if accept_lengths:` and is therefore not repeated here. -/
def aggregateRecords (results : List Record) : Metrics :=
  if results.isEmpty then emptyMetrics
  else
    let wall_times := extractField Choice.wall_time results
    let decoding_steps := extractField Choice.decoding_steps results
    let new_tokens := extractField Choice.new_tokens results
    let accept_lengths := extractField Choice.accept_lengths results
    let tps := tokensPerSec new_tokens wall_times
    { total_questions := some (results.length : ℚ)
      avg_wall_time :=
        if wall_times.isEmpty then none else some (wall_times.sum / wall_times.length)
      total_wall_time := if wall_times.isEmpty then none else some wall_times.sum
      max_wall_time := if wall_times.isEmpty then none else some (listMax wall_times)
      min_wall_time := if wall_times.isEmpty then none else some (listMin wall_times)
      avg_decoding_steps :=
        if decoding_steps.isEmpty then none
        else some (decoding_steps.sum / decoding_steps.length)
      total_decoding_steps :=
        if decoding_steps.isEmpty then none else some decoding_steps.sum
      avg_new_tokens :=
        if new_tokens.isEmpty then none else some (new_tokens.sum / new_tokens.length)
      total_new_tokens := if new_tokens.isEmpty then none else some new_tokens.sum
      avg_tokens_per_sec :=
        if new_tokens.isEmpty then none
        else if ¬wall_times.isEmpty ∧ wall_times.length = new_tokens.length then
          some (tps.sum / tps.length)
        else none
      max_tokens_per_sec :=
        if new_tokens.isEmpty then none
        else if ¬wall_times.isEmpty ∧ wall_times.length = new_tokens.length then
          some (listMax tps)
        else none
      avg_accept_length :=
        if accept_lengths.isEmpty then none
        else some (accept_lengths.sum / accept_lengths.length)
      max_accept_length :=
        if accept_lengths.isEmpty then none else some (listMax accept_lengths)
      acceptance_rate :=
        if accept_lengths.isEmpty then none
        else some ((accept_lengths.countP (fun a => decide (0 < a)) : ℚ) /
          accept_lengths.length) }

/-- One line of a results file as seen by line 273:
blank lines are filtered out before `json.loads`, a non-blank line either
parses to a record or raises `JSONDecodeError`. -/
inductive FileLine where
  | blank : FileLine
  | malformed : FileLine
  | valid : Record → FileLine
deriving DecidableEq, Repr

/-- Whether a line is malformed. -/
def FileLine.isMalformed : FileLine → Bool
  | .malformed => true
  | _ => false

/-- The records of the well-formed lines, in order. -/
def validRecords (ls : List FileLine) : List Record :=
  ls.filterMap fun
    | .valid r => some r
    | _ => none

/-- `MLflowLogger._parse_benchmark_results` (lines 268-342) at file level.
The list comprehension
`results = [json.loads(line) for line in f if line.strip()]` raises on the
first malformed non-blank line; the exception is caught by the handler of
line 339, which returns `metrics` — still the empty dict, since no metric
has been added yet.  Otherwise the parsed records are aggregated. -/
def parseBenchmarkResults (ls : List FileLine) : Metrics :=
  if ls.any FileLine.isMalformed then emptyMetrics
  else aggregateRecords (validRecords ls)

/-- Replace the absent metric arrays of one choice by explicitly empty
ones (used to state that absent arrays are treated as empty). -/
def fillChoice (c : Choice) : Choice :=
  { wall_time := some (c.wall_time.getD [])
    decoding_steps := some (c.decoding_steps.getD [])
    new_tokens := some (c.new_tokens.getD [])
    accept_lengths := some (c.accept_lengths.getD []) }

/-- Apply `fillChoice` to every choice of a record, keeping the `choices`
key itself as it was. -/
def fillRecord (r : Record) : Record :=
  { choices := r.choices.map (List.map fillChoice) }

/-- The branch-name character class of `sanitize_branch_name` (line 356):
the regex set `[a-zA-Z0-9_-]`. -/
def isAllowedChar (c : Char) : Bool :=
  (('a' ≤ c && c ≤ 'z') || ('A' ≤ c && c ≤ 'Z') || ('0' ≤ c && c ≤ '9')
    || c == '_' || c == '-')

/-- `re.sub(r'[^a-zA-Z0-9_-]', '_', name)` (line 356): each character
outside the class is replaced by an underscore, characters inside it are
kept. -/
def substituteChars (s : List Char) : List Char :=
  s.map fun c => if isAllowedChar c then c else '_'

/-- `sanitize_branch_name` (lines 353-359) over the character list of the
name: substitute, then if the result starts with a dash, drop that dash
and prepend `model_`. -/
def sanitizeChars (s : List Char) : List Char :=
  let safe := substituteChars s
  if safe.head? = some '-' then ('m' :: 'o' :: 'd' :: 'e' :: 'l' :: '_' :: []) ++ safe.tail
  else safe

/-- `sanitize_branch_name` on strings. -/
def sanitize_branch_name (s : String) : String :=
  ⟨sanitizeChars s.data⟩

/-- `LakeFSUploader.create_branch` (lines 131-144) against an abstract
remote repository holding the set of existing branch names.  The LakeFS
API call raises a conflict error when the branch already exists; the
`except` of line 142 swallows any exception and returns `False`, a fresh
name is created and `True` returned.  The `source` argument is forwarded
to the API and does not influence the outcome (the source branch is
assumed to exist).  Returns the outcome and the new remote state. -/
def create_branch (existing : List String) (branch_name source_branch : String) :
    Bool × List String :=
  if branch_name ∈ existing then (false, existing)
  else (true, branch_name :: existing)

/-- The tracker-side configuration keys consulted by `MLflowLogger.__init__`
(lines 180-193): every key is optional in the config dict. -/
structure MlflowConfig where
  tracking_uri : Option String := none
  username : Option String := none
  password : Option String := none
  experiment_name : Option String := none
deriving DecidableEq, Repr

/-- Outcome of `MLflowLogger.__init__`: either a constructed logger with
its `enabled` flag, or an exception escaping the constructor. -/
inductive TrackerInitResult where
  | ok : Bool → TrackerInitResult
  | raisedTypeError : TrackerInitResult
deriving DecidableEq, Repr

/-- `MLflowLogger.__init__` (lines 172-202).  `available` is the module
flag `MLFLOW_AVAILABLE`; `setExperimentOk` is the outcome the backend
gives `mlflow.set_experiment` (false on an unreachable backend).  The
constructor assigns `os.environ['MLFLOW_TRACKING_USERNAME'] = username`
and likewise the password (lines 190-191) without a `None` check:
`os.environ` accepts only strings, so a missing credential raises a
`TypeError` that escapes the constructor.  An unreachable backend is
caught at line 200 and merely disables the logger. -/
def mlflowLoggerInit (available : Bool) (cfg : MlflowConfig)
    (setExperimentOk : Bool) : TrackerInitResult :=
  if ¬available then .ok false
  else
    match cfg.username with
    | none => .raisedTypeError
    | some _ =>
      match cfg.password with
      | none => .raisedTypeError
      | some _ => if setExperimentOk then .ok true else .ok false

/-- One discovered result file together with the outcome the store gives
its upload attempt. -/
structure UploadFile where
  name : String
  ok : Bool
deriving DecidableEq, Repr

/-- The outside-world outcomes `upload_benchmark_results` depends on:
constructor success of the LakeFS client, the connectivity probe, the
results directory existing, the discovered files with their individual
upload outcomes, the metadata-manifest upload outcome, what
`commit_changes` returns when invoked (`none` = API failure), and whether
an MLflow logger object was passed in. -/
structure BatchEnv where
  initOk : Bool
  connOk : Bool
  dirExists : Bool
  files : List UploadFile
  metaOk : Bool
  commitId : Option String
  mlflowPresent : Bool
deriving DecidableEq, Repr

/-- Observable outcome of one `upload_benchmark_results` run. -/
structure BatchResult where
  success : Bool
  uploaded : List String
  failed : List String
  commitAttempted : Bool
  commitResult : Option String
  loggedSuccessRate : Option ℚ
deriving DecidableEq, Repr

/-- Python truthiness of the value `commit_changes` returned (`if commit_id:`,
line 576): `None` and the empty string are falsy. -/
def pyTruthy : Option String → Bool
  | none => false
  | some s => !(s == "")

/-- The `uploaded_files` accumulated by the upload loop (lines 527-542):
the remote paths of the files whose upload succeeded, in file order (the
shared `results/{timestamp}/` prefix is left implicit). -/
def uploadedNames (files : List UploadFile) : List String :=
  (files.filter (fun f => f.ok)).map (fun f => f.name)

/-- The `failed_files` accumulated by the upload loop. -/
def failedNames (files : List UploadFile) : List String :=
  (files.filter (fun f => ¬f.ok)).map (fun f => f.name)

/-- `uploaded_files` after the metadata block (lines 544-555): when at
least one upload succeeded the manifest is synthesized and uploaded, and
its remote path appended on success. -/
def uploadedWithMeta (files : List UploadFile) (metaOk : Bool) : List String :=
  if (uploadedNames files).isEmpty then uploadedNames files
  else if metaOk then uploadedNames files ++ ["experiment_metadata.json"]
  else uploadedNames files

/-- `upload_benchmark_results` (lines 468-605).  Straight-line port of the
control flow: the four pre-flight gates each return `False` (lines
477-499); the loop accumulates `uploaded_files`/`failed_files` in file
order (lines 527-542); the metadata manifest is built and uploaded only
when at least one upload succeeded, its remote path appended on success
(lines 544-555); a commit is attempted only under `if uploaded_files:`
(line 565); on a truthy commit id the summary metrics — among them
`upload_success_rate = len(uploaded_files) / len(result_files)` — are
handed to the logger when one is present (lines 583-590) and `True` is
returned; every other path falls through to `return False` (line 605). -/
def upload_benchmark_results (env : BatchEnv) : BatchResult :=
  if ¬env.initOk then ⟨false, [], [], false, none, none⟩
  else if ¬env.connOk then ⟨false, [], [], false, none, none⟩
  else if ¬env.dirExists then ⟨false, [], [], false, none, none⟩
  else if env.files.isEmpty then ⟨false, [], [], false, none, none⟩
  else
    let uploaded := uploadedWithMeta env.files env.metaOk
    let failed := failedNames env.files
    if uploaded.isEmpty then ⟨false, uploaded, failed, false, none, none⟩
    else
      if pyTruthy env.commitId then
        ⟨true, uploaded, failed, true, env.commitId,
          if env.mlflowPresent then
            some ((uploaded.length : ℚ) / (env.files.length : ℚ))
          else none⟩
      else ⟨false, uploaded, failed, true, env.commitId, none⟩

/-- What happens while the upload call inside `main`'s `try` block runs:
it returns normally, a `KeyboardInterrupt` arrives, or some other
exception is raised. -/
inductive WorkSignal where
  | normal : WorkSignal
  | interrupted : WorkSignal
  | raisedError : WorkSignal
deriving DecidableEq, Repr

/-- The inputs and outside-world outcomes `main` (lines 608-684) depends
on: the `--single-file` and `--no-mlflow` flags, whether the
`MLflowLogger(config)` constructor raises (line 655), what happens during
the upload call, and the boolean the upload function returns when it
completes. -/
structure MainEnv where
  singleFile : Bool
  noMlflow : Bool
  trackerCtorRaises : Bool
  sig : WorkSignal
  workResult : Bool
deriving DecidableEq, Repr

/-- Observable outcome of one `main` invocation: the process exit status,
whether the process died from an exception nobody handled (CPython then
exits with status 1 after printing a traceback), and how many times
`mlflow_logger.end_run()` was invoked. -/
structure MainOutcome where
  exitCode : Nat
  unhandled : Bool
  endRunCalls : Nat
deriving DecidableEq, Repr

/-- `main` (lines 608-684).  In the `--single-file` branch the local
variable `mlflow_logger` is never assigned (it is assigned only in the
batch branch, line 653), so when the `except KeyboardInterrupt` or
`except Exception` handler then evaluates `if mlflow_logger:` it raises
`UnboundLocalError`, which escapes `main`: the process prints a traceback
and exits with status 1, and `end_run` is never reached.  In the batch
branch `mlflow_logger` is first bound to `None`, so a constructor failure
at line 655 lands in `except Exception` with `mlflow_logger = None` and
exits 1 without an `end_run` call; otherwise `end_run` is invoked once on
the normal path (line 666) and once in whichever handler runs.
`sys.exit` raises `SystemExit`, which neither handler catches. -/
def mainRun (env : MainEnv) : MainOutcome :=
  if env.singleFile then
    match env.sig with
    | .normal => ⟨if env.workResult then 0 else 1, false, 0⟩
    | .interrupted => ⟨1, true, 0⟩
    | .raisedError => ⟨1, true, 0⟩
  else
    if ¬env.noMlflow && env.trackerCtorRaises then ⟨1, false, 0⟩
    else
      let hasLogger : Bool := ¬env.noMlflow
      match env.sig with
      | .normal => ⟨if env.workResult then 0 else 1, false, if hasLogger then 1 else 0⟩
      | .interrupted => ⟨130, false, if hasLogger then 1 else 0⟩
      | .raisedError => ⟨1, false, if hasLogger then 1 else 0⟩

lemma isAllowedChar_of_substituted (c : Char) :
    isAllowedChar (if isAllowedChar c then c else '_') = true := by
  by_cases h : isAllowedChar c
  · simp [h]
  · simp [h]; decide

lemma substituteChars_all_allowed (s : List Char) :
    (substituteChars s).all isAllowedChar = true := by
  rw [List.all_eq_true]
  intro x hx
  rw [substituteChars, List.mem_map] at hx
  obtain ⟨c, _, rfl⟩ := hx
  exact isAllowedChar_of_substituted c

lemma substituteChars_forall₂ (s : List Char) :
    List.Forall₂ (fun a b => b = if isAllowedChar a then a else '_') s
      (substituteChars s) := by
  induction s with
  | nil => exact List.Forall₂.nil
  | cons c cs ih => exact List.Forall₂.cons rfl ih

lemma sanitizeChars_all_allowed (s : List Char) :
    (sanitizeChars s).all isAllowedChar = true := by
  rw [sanitizeChars]
  by_cases h : (substituteChars s).head? = some '-'
  · simp only [h, if_pos]
    rw [List.all_append, Bool.and_eq_true]
    refine ⟨by decide, ?_⟩
    have := substituteChars_all_allowed s
    rw [List.all_eq_true] at this ⊢
    intro x hx
    exact this x (List.mem_of_mem_tail hx)
  · simp only [h, if_neg, ite_false]
    exact substituteChars_all_allowed s

/-- C8: sanitization substitutes an underscore for each character outside
`[A-Za-z0-9_-]` (characters inside the class are kept, stated as a
pointwise `Forall₂` relation between input and substituted output), a
leading dash after substitution is replaced by the `model_` prefix, every
output character lies in the class, and concretely
`sanitize_branch_name "--bad/name"` starts with `model_` with every
character in the class. -/
theorem sanitize_branch_name_spec (name : List Char) :
    List.Forall₂ (fun a b => b = if isAllowedChar a then a else '_') name
      (substituteChars name)
    ∧ sanitizeChars name =
        (if (substituteChars name).head? = some '-' then
          ('m' :: 'o' :: 'd' :: 'e' :: 'l' :: '_' :: []) ++ (substituteChars name).tail
        else substituteChars name)
    ∧ (sanitizeChars name).all isAllowedChar = true
    ∧ sanitize_branch_name "--bad/name" = "model_-bad_name"
    ∧ (sanitize_branch_name "--bad/name").data.take 6 = "model_".data
    ∧ (sanitize_branch_name "--bad/name").data.all isAllowedChar = true := by
  refine ⟨substituteChars_forall₂ name, rfl, sanitizeChars_all_allowed name, ?_, ?_, ?_⟩
  · decide
  · decide
  · decide

/-- C7 (counterexample): creating the same branch twice from the same
source on the same repository state returns success the first time and
failure the second — the already-existing branch is reported as a failed
creation (`create_branch` returns `False`), not as success. -/
theorem create_branch_second_call_fails :
    (create_branch [] "experiment_b" "main").1 = true
    ∧ (create_branch (create_branch [] "experiment_b" "main").2
        "experiment_b" "main").1 = false := by
  decide

/-- C7 (amended): `create_branch` never raises; on a fresh name it returns
success, the name is in the resulting remote state, and a second identical
invocation returns failure (the duplicate-branch API error is swallowed
into a logged `False`, which the orchestrator's call sites ignore, so an
existing branch still does not abort the pipeline). -/
theorem create_branch_existing_reports_failure (existing : List String)
    (branch_name source_branch : String) :
    (branch_name ∉ existing →
      (create_branch existing branch_name source_branch).1 = true)
    ∧ branch_name ∈ (create_branch existing branch_name source_branch).2
    ∧ (create_branch (create_branch existing branch_name source_branch).2
        branch_name source_branch).1 = false := by
  by_cases h : branch_name ∈ existing
  · refine ⟨fun hn => absurd h hn, ?_, ?_⟩
    · simp [create_branch, h]
    · simp [create_branch, h]
  · refine ⟨fun _ => by simp [create_branch, h], ?_, ?_⟩
    · simp [create_branch, h]
    · simp [create_branch, h]

/-- Witness for `create_branch_existing_reports_failure` at a concrete
fresh repository state. -/
theorem create_branch_existing_reports_failure_witness :
    (create_branch [] "experiment_b" "main").1 = true :=
  (create_branch_existing_reports_failure [] "experiment_b" "main").1 (by decide)

/-- C5: with MLflow importable, a configuration whose `mlflow` section
lacks a username makes `MLflowLogger.__init__` raise a `TypeError` (the
`os.environ` assignment of `None`) instead of returning a disabled
tracker, so missing credentials abort the publish flow; an unreachable
backend with credentials present, by contrast, is caught and yields the
disabled logger the claim describes. -/
theorem mlflow_missing_credentials_raise :
    mlflowLoggerInit true { tracking_uri := some "http://mlflow" } true
      = TrackerInitResult.raisedTypeError
    ∧ mlflowLoggerInit true
        { tracking_uri := some "http://mlflow", username := some "u",
          password := some "p" } false = TrackerInitResult.ok false := by
  exact ⟨rfl, rfl⟩

/-- C6: in single-file mode an external interruption during the upload
makes the `except KeyboardInterrupt` handler evaluate the never-assigned
`mlflow_logger`, raising `UnboundLocalError`: `end_run` is invoked zero
times and the process dies on an unhandled exception, against the claimed
exactly-once run closure on every exit path; the batch path, by contrast,
does invoke `end_run` exactly once on the same interruption. -/
theorem main_interrupt_run_closure :
    (mainRun { singleFile := true, noMlflow := false, trackerCtorRaises := false,
               sig := .interrupted, workResult := true }).endRunCalls = 0
    ∧ (mainRun { singleFile := true, noMlflow := false, trackerCtorRaises := false,
                 sig := .interrupted, workResult := true }).unhandled = true
    ∧ (mainRun { singleFile := false, noMlflow := false, trackerCtorRaises := false,
                 sig := .interrupted, workResult := true }).endRunCalls = 1 := by
  exact ⟨rfl, rfl, rfl⟩

/-- C9: on external interruption the single-file mode exits with status 1
(via the unhandled `UnboundLocalError` raised inside the interrupt
handler), not the claimed 130; batch mode does exit 130 on interruption,
and both modes exit 0 on success and 1 on failure when uninterrupted. -/
theorem main_interrupt_exit_code :
    (mainRun { singleFile := true, noMlflow := false, trackerCtorRaises := false,
               sig := .interrupted, workResult := false }).exitCode = 1
    ∧ (mainRun { singleFile := false, noMlflow := false, trackerCtorRaises := false,
                 sig := .interrupted, workResult := false }).exitCode = 130
    ∧ (mainRun { singleFile := true, noMlflow := true, trackerCtorRaises := false,
                 sig := .normal, workResult := true }).exitCode = 0
    ∧ (mainRun { singleFile := false, noMlflow := false, trackerCtorRaises := false,
                 sig := .normal, workResult := false }).exitCode = 1 := by
  exact ⟨rfl, rfl, rfl, rfl⟩

lemma uploadedNames_eq_nil_of_all_fail {files : List UploadFile}
    (h : ∀ f ∈ files, f.ok = false) : uploadedNames files = [] := by
  unfold uploadedNames
  rw [List.map_eq_nil_iff]
  exact List.filter_eq_nil_iff.mpr (fun f hf => by simp [h f hf])

lemma uploadedWithMeta_eq_nil_of_all_fail {files : List UploadFile}
    (metaOk : Bool) (h : ∀ f ∈ files, f.ok = false) :
    uploadedWithMeta files metaOk = [] := by
  unfold uploadedWithMeta
  simp [uploadedNames_eq_nil_of_all_fail h]

/-- C1: for every batch run, a commit is attempted only when the
accumulated `uploaded_files` list is non-empty; when every per-file upload
fails no commit is attempted, `uploaded_files` stays empty and the run
returns failure; and overall success is reported exactly when the commit
call returned a (truthy) commit id. -/
theorem upload_commit_policy (env : BatchEnv) :
    ((upload_benchmark_results env).commitAttempted = true →
      (upload_benchmark_results env).uploaded ≠ [])
    ∧ ((∀ f ∈ env.files, f.ok = false) →
        (upload_benchmark_results env).commitAttempted = false
        ∧ (upload_benchmark_results env).uploaded = []
        ∧ (upload_benchmark_results env).success = false)
    ∧ ((upload_benchmark_results env).success = true ↔
        pyTruthy (upload_benchmark_results env).commitResult = true) := by
  refine ⟨?_, ?_, ?_⟩
  · intro hc
    simp only [upload_benchmark_results] at hc ⊢
    split_ifs at hc ⊢ with g1 g2 g3 g4 g5 g6 g7 <;>
      simp_all [List.isEmpty_iff]
  · intro hall
    have hnil : uploadedWithMeta env.files env.metaOk = [] :=
      uploadedWithMeta_eq_nil_of_all_fail env.metaOk hall
    simp only [upload_benchmark_results]
    split_ifs with g1 g2 g3 g4 g5 g6 g7 <;>
      simp_all [List.isEmpty_iff]
  · simp only [upload_benchmark_results]
    split_ifs with g1 g2 g3 g4 g5 g6 g7 <;>
      simp_all [pyTruthy]

/-- A batch environment where every upload succeeds. -/
def envAllOk : BatchEnv :=
  ⟨true, true, true, [⟨"bench_a.jsonl", true⟩, ⟨"bench_b.jsonl", true⟩], true,
    some "deadbeef", true⟩

/-- A batch environment where every per-file upload fails. -/
def envAllFail : BatchEnv :=
  ⟨true, true, true, [⟨"bench_a.jsonl", false⟩], true, some "deadbeef", true⟩

/-- Witness for `upload_commit_policy`: at the all-uploads-fail
environment no commit is attempted and the run fails; at the all-ok
environment the attempted commit implies a non-empty upload list. -/
theorem upload_commit_policy_witness :
    ((upload_benchmark_results envAllFail).commitAttempted = false
      ∧ (upload_benchmark_results envAllFail).uploaded = []
      ∧ (upload_benchmark_results envAllFail).success = false)
    ∧ (upload_benchmark_results envAllOk).uploaded ≠ [] :=
  ⟨(upload_commit_policy envAllFail).2.1 (by decide),
   (upload_commit_policy envAllOk).1 (by decide)⟩

lemma uploadedNames_of_all_ok {files : List UploadFile}
    (h : ∀ f ∈ files, f.ok = true) :
    uploadedNames files = files.map (fun f => f.name) := by
  unfold uploadedNames
  rw [List.filter_eq_self.mpr (fun f hf => by simp [h f hf])]

lemma uploadedWithMeta_length_of_all_ok {files : List UploadFile}
    (hne : files ≠ []) (h : ∀ f ∈ files, f.ok = true) :
    (uploadedWithMeta files true).length = files.length + 1 := by
  unfold uploadedWithMeta
  rw [uploadedNames_of_all_ok h]
  have : (files.map (fun f => f.name)).isEmpty = false := by
    simp [List.isEmpty_iff, hne]
  simp [this]

/-- C10: when every one of the n ≥ 1 discovered files uploads successfully
and the metadata-manifest upload also succeeds (with a tracker object
present and a truthy commit id), the `upload_success_rate` handed to the
tracker equals (n+1)/n, strictly greater than 1, because the manifest path
was appended to `uploaded_files` before the ratio over the n result files
was computed. -/
theorem upload_success_rate_exceeds_one (env : BatchEnv)
    (h1 : env.initOk = true) (h2 : env.connOk = true) (h3 : env.dirExists = true)
    (h4 : env.files ≠ []) (h5 : ∀ f ∈ env.files, f.ok = true)
    (h6 : env.metaOk = true) (h7 : env.mlflowPresent = true)
    (h8 : pyTruthy env.commitId = true) :
    (upload_benchmark_results env).loggedSuccessRate =
      some (((env.files.length : ℚ) + 1) / (env.files.length : ℚ))
    ∧ 1 < ((env.files.length : ℚ) + 1) / (env.files.length : ℚ) := by
  have hn : (0 : ℚ) < (env.files.length : ℚ) := by
    exact_mod_cast List.length_pos.mpr h4
  constructor
  · have hlen : (uploadedWithMeta env.files env.metaOk).length = env.files.length + 1 := by
      rw [h6]; exact uploadedWithMeta_length_of_all_ok h4 h5
    have hne : uploadedWithMeta env.files env.metaOk ≠ [] := by
      intro hnil
      rw [hnil] at hlen
      simp at hlen
    simp only [upload_benchmark_results]
    split_ifs with g1 g2
    · exact absurd (List.isEmpty_iff.mp g1) h4
    · exact absurd (List.isEmpty_iff.mp g2) hne
    · rw [show ((⟨true, uploadedWithMeta env.files env.metaOk, failedNames env.files,
          true, env.commitId,
          some (((uploadedWithMeta env.files env.metaOk).length : ℚ) /
            (env.files.length : ℚ))⟩ : BatchResult).loggedSuccessRate =
          some (((uploadedWithMeta env.files env.metaOk).length : ℚ) /
            (env.files.length : ℚ))) from rfl, hlen]
      push_cast
      ring_nf
  · rw [one_lt_div hn]
    linarith

/-- Witness for `upload_success_rate_exceeds_one`: with two files both
uploading successfully, the logged success rate is 3/2. -/
theorem upload_success_rate_exceeds_one_witness :
    (upload_benchmark_results envAllOk).loggedSuccessRate =
      some (((envAllOk.files.length : ℚ) + 1) / (envAllOk.files.length : ℚ))
    ∧ 1 < ((envAllOk.files.length : ℚ) + 1) / (envAllOk.files.length : ℚ) :=
  upload_success_rate_exceeds_one envAllOk rfl rfl rfl (by decide) (by decide)
    rfl rfl (by decide)

lemma fillRecord_step_eq (f : Choice → Option (List ℚ))
    (hf : ∀ c, f (fillChoice c) = some ((f c).getD [])) (acc : List ℚ) (r : Record) :
    (match firstChoice (fillRecord r) with
     | none => acc
     | some c =>
       match f c with
       | none => acc
       | some xs => acc ++ xs) =
    (match firstChoice r with
     | none => acc
     | some c =>
       match f c with
       | none => acc
       | some xs => acc ++ xs) := by
  cases hr : r.choices with
  | none => simp [fillRecord, firstChoice, hr]
  | some cs =>
    cases cs with
    | nil => simp [fillRecord, firstChoice, hr]
    | cons c cs' =>
      simp only [fillRecord, firstChoice, hr, Option.map_some', List.map_cons]
      rw [hf c]
      cases hfc : f c with
      | none => simp [hfc]
      | some xs => simp [hfc]

lemma extractField_map_fillRecord (f : Choice → Option (List ℚ))
    (hf : ∀ c, f (fillChoice c) = some ((f c).getD [])) (rs : List Record) :
    extractField f (rs.map fillRecord) = extractField f rs := by
  unfold extractField
  rw [List.foldl_map]
  congr 1
  funext acc r
  exact fillRecord_step_eq f hf acc r

lemma map_fillRecord_isEmpty (rs : List Record) :
    (rs.map fillRecord).isEmpty = rs.isEmpty := by
  cases rs <;> rfl

lemma aggregateRecords_map_fillRecord (rs : List Record) :
    aggregateRecords (rs.map fillRecord) = aggregateRecords rs := by
  have hwt := extractField_map_fillRecord Choice.wall_time (fun c => rfl) rs
  have hds := extractField_map_fillRecord Choice.decoding_steps (fun c => rfl) rs
  have hnt := extractField_map_fillRecord Choice.new_tokens (fun c => rfl) rs
  have hal := extractField_map_fillRecord Choice.accept_lengths (fun c => rfl) rs
  simp only [aggregateRecords, hwt, hds, hnt, hal, List.length_map,
    map_fillRecord_isEmpty]

/-- C2 (amended): the aggregation itself is tolerant of missing fields —
replacing every absent metric array by an explicitly empty one changes
nothing, and well-formed sparse input is handled by a total function — but
a malformed line is not individually skipped: whenever any line of the
file is malformed the whole file's metric set is the empty mapping (the
parse error is caught at file level, never propagated), and only a file
with no malformed line has its metrics derived from its well-formed
lines. -/
theorem parse_tolerance (ls : List FileLine) (rs : List Record) :
    (ls.any FileLine.isMalformed = true → parseBenchmarkResults ls = emptyMetrics)
    ∧ (ls.any FileLine.isMalformed = false →
        parseBenchmarkResults ls = aggregateRecords (validRecords ls))
    ∧ aggregateRecords (rs.map fillRecord) = aggregateRecords rs := by
  refine ⟨fun h => by simp [parseBenchmarkResults, h],
    fun h => by simp [parseBenchmarkResults, h],
    aggregateRecords_map_fillRecord rs⟩

/-- A record with one choice holding a two-entry accept-length array. -/
def recOne : Record := { choices := some [{ accept_lengths := some [2] }] }

/-- C2 (counterexample): a file holding one well-formed record and one
malformed line yields the empty metric mapping — no metric is derived from
the remaining well-formed line (its lone record would have produced
`total_questions = 1` and `acceptance_rate = 1`), falsifying the claim
that each malformed line is individually skipped while metrics are still
derived from the rest. -/
theorem parse_malformed_discards_whole_file :
    parseBenchmarkResults [FileLine.valid recOne, FileLine.malformed] = emptyMetrics
    ∧ (parseBenchmarkResults [FileLine.valid recOne, FileLine.malformed]).total_questions
        = none
    ∧ (aggregateRecords [recOne]).total_questions = some 1
    ∧ (aggregateRecords [recOne]).acceptance_rate = some 1 := by
  refine ⟨rfl, rfl, ?_, ?_⟩
  · norm_num [aggregateRecords, recOne, emptyMetrics]
  · norm_num [aggregateRecords, extractField, firstChoice, recOne, emptyMetrics]

/-- Witness for `parse_tolerance`: a sparse file with a blank line and one
record aggregates exactly its well-formed records. -/
theorem parse_tolerance_witness :
    parseBenchmarkResults [FileLine.blank, FileLine.valid recOne] =
      aggregateRecords (validRecords [FileLine.blank, FileLine.valid recOne]) :=
  (parse_tolerance [FileLine.blank, FileLine.valid recOne] []).2.1 (by decide)

/-- C3 (counterexample): for a record set whose flattened `accept_lengths`
is empty (one record without the key), the `acceptance_rate` metric is
absent from the derived mapping — not present with value 0 as the claim
states. -/
theorem acceptance_rate_absent_on_empty_list :
    (aggregateRecords [({} : Record)]).acceptance_rate = none
    ∧ (aggregateRecords [({} : Record)]).acceptance_rate ≠ some 0 := by
  have h : (aggregateRecords [({} : Record)]).acceptance_rate = none := by
    norm_num [aggregateRecords, extractField, firstChoice, emptyMetrics]
  exact ⟨h, by rw [h]; exact fun hc => Option.noConfusion hc⟩

/-- C3 (amended): `acceptance_rate` is present iff the flattened
`accept_lengths` list is non-empty, in which case it equals the fraction
of entries strictly greater than zero; whenever present it lies in [0,1]
and equals 0 on an all-zero list; the computation is total (the division
is guarded by non-emptiness). -/
theorem acceptance_rate_spec (rs : List Record) :
    (aggregateRecords rs).acceptance_rate =
      (if (extractField Choice.accept_lengths rs).isEmpty then none
       else some
        (((extractField Choice.accept_lengths rs).countP
            (fun a => decide (0 < a)) : ℚ) /
          ((extractField Choice.accept_lengths rs).length : ℚ)))
    ∧ (∀ q, (aggregateRecords rs).acceptance_rate = some q →
        0 ≤ q ∧ q ≤ 1
        ∧ ((∀ x ∈ extractField Choice.accept_lengths rs, x = 0) → q = 0)) := by
  have hmain : (aggregateRecords rs).acceptance_rate =
      (if (extractField Choice.accept_lengths rs).isEmpty then none
       else some
        (((extractField Choice.accept_lengths rs).countP
            (fun a => decide (0 < a)) : ℚ) /
          ((extractField Choice.accept_lengths rs).length : ℚ))) := by
    by_cases hrs : rs.isEmpty
    · rw [List.isEmpty_iff] at hrs
      subst hrs
      simp [aggregateRecords, extractField, emptyMetrics]
    · simp only [aggregateRecords, if_neg hrs]
  refine ⟨hmain, ?_⟩
  intro q hq
  rw [hmain] at hq
  by_cases hemp : (extractField Choice.accept_lengths rs).isEmpty
  · rw [if_pos hemp] at hq
    exact absurd hq (by simp)
  · rw [if_neg hemp] at hq
    have hq' : (((extractField Choice.accept_lengths rs).countP
          (fun a => decide (0 < a)) : ℚ) /
        ((extractField Choice.accept_lengths rs).length : ℚ)) = q :=
      Option.some.inj hq
    have hne : extractField Choice.accept_lengths rs ≠ [] := by
      intro hnil
      exact hemp (by rw [hnil]; rfl)
    have hlen : (0 : ℚ) < ((extractField Choice.accept_lengths rs).length : ℚ) := by
      exact_mod_cast List.length_pos.mpr hne
    refine ⟨?_, ?_, ?_⟩
    · rw [← hq']
      positivity
    · rw [← hq']
      rw [div_le_one hlen]
      exact_mod_cast List.countP_le_length _
    · intro hz
      have hcnt : (extractField Choice.accept_lengths rs).countP
          (fun a => decide (0 < a)) = 0 := by
        rw [List.countP_eq_zero]
        intro x hx
        simp [hz x hx]
      rw [← hq', hcnt]
      simp

/-- A record whose accept-length array is half zero, half positive. -/
def recHalf : Record := { choices := some [{ accept_lengths := some [0, 3] }] }

/-- Witness for `acceptance_rate_spec`: on `recHalf` the rate is present,
equal to 1/2, and within [0,1]. -/
theorem acceptance_rate_spec_witness :
    ∃ q, (aggregateRecords [recHalf]).acceptance_rate = some q
      ∧ 0 ≤ q ∧ q ≤ 1 := by
  have hval : (aggregateRecords [recHalf]).acceptance_rate = some (1/2 : ℚ) := by
    norm_num [aggregateRecords, extractField, firstChoice, recHalf, emptyMetrics]
  have h := (acceptance_rate_spec [recHalf]).2 (1/2) hval
  exact ⟨1/2, hval, h.1, h.2.1⟩

lemma tps_presence (wt nt : List ℚ) (v : ℚ) :
    (if nt.isEmpty then none
     else if ¬wt.isEmpty ∧ wt.length = nt.length then some v
     else none).isSome = true ↔ (wt.length = nt.length ∧ nt ≠ []) := by
  by_cases h1 : nt.isEmpty
  · rw [List.isEmpty_iff] at h1
    subst h1
    simp
  · have hne : nt ≠ [] := fun h => h1 (by rw [h]; rfl)
    rw [if_neg h1]
    by_cases h2 : ¬wt.isEmpty ∧ wt.length = nt.length
    · simp only [if_pos h2, Option.isSome_some, true_iff]
      exact ⟨h2.2, hne⟩
    · rw [if_neg h2]
      simp only [Option.isSome_none, Bool.false_eq_true, false_iff, not_and]
      intro hlen
      intro hne'
      apply h2
      refine ⟨?_, hlen⟩
      intro hw
      rw [List.isEmpty_iff] at hw
      rw [hw] at hlen
      exact hne (List.length_eq_zero.mp hlen.symm)

lemma tps_value (wt nt : List ℚ) (v : ℚ) (hlen : wt.length = nt.length)
    (hne : nt ≠ []) :
    (if nt.isEmpty then none
     else if ¬wt.isEmpty ∧ wt.length = nt.length then some v
     else none) = some v := by
  have hwne : wt ≠ [] := by
    intro h
    rw [h] at hlen
    exact hne (List.length_eq_zero.mp hlen.symm)
  have g1 : ¬(nt.isEmpty = true) := fun h => hne (List.isEmpty_iff.mp h)
  have g2 : ¬(wt.isEmpty = true) := fun h => hwne (List.isEmpty_iff.mp h)
  rw [if_neg g1, if_pos ⟨g2, hlen⟩]

lemma single_presence (l : List ℚ) (v : ℚ) :
    (if l.isEmpty then none else some v).isSome = true ↔ l ≠ [] := by
  by_cases h : l.isEmpty <;> simp_all [List.isEmpty_iff]

/-- C4 (amended): the `tokens_per_sec` metrics (avg and max) are present
in the derived mapping iff the flattened `wall_time` and `new_tokens`
sequences have equal and non-zero length, in which case they are the mean
and maximum of the per-sample `tokensPerSec` list (whose ratio is
`new_tokens / wall_time` when the wall time is strictly positive and 0
otherwise — also 0, not the quotient, on a non-positive wall time); when
absent this is silent, the remaining metrics staying populated according
to their own arrays only. -/
theorem tokens_per_sec_spec (rs : List Record) :
    ((aggregateRecords rs).avg_tokens_per_sec.isSome = true ↔
      ((extractField Choice.wall_time rs).length =
          (extractField Choice.new_tokens rs).length
        ∧ extractField Choice.new_tokens rs ≠ []))
    ∧ ((aggregateRecords rs).max_tokens_per_sec.isSome = true ↔
      ((extractField Choice.wall_time rs).length =
          (extractField Choice.new_tokens rs).length
        ∧ extractField Choice.new_tokens rs ≠ []))
    ∧ ((extractField Choice.wall_time rs).length =
          (extractField Choice.new_tokens rs).length →
        extractField Choice.new_tokens rs ≠ [] →
        (aggregateRecords rs).avg_tokens_per_sec =
          some ((tokensPerSec (extractField Choice.new_tokens rs)
              (extractField Choice.wall_time rs)).sum /
            ((tokensPerSec (extractField Choice.new_tokens rs)
                (extractField Choice.wall_time rs)).length : ℚ))
        ∧ (aggregateRecords rs).max_tokens_per_sec =
          some (listMax (tokensPerSec (extractField Choice.new_tokens rs)
              (extractField Choice.wall_time rs))))
    ∧ ((aggregateRecords rs).total_questions.isSome = true ↔ rs ≠ [])
    ∧ ((aggregateRecords rs).avg_wall_time.isSome = true ↔
        extractField Choice.wall_time rs ≠ [])
    ∧ ((aggregateRecords rs).avg_new_tokens.isSome = true ↔
        extractField Choice.new_tokens rs ≠ [])
    ∧ ((aggregateRecords rs).acceptance_rate.isSome = true ↔
        extractField Choice.accept_lengths rs ≠ []) := by
  by_cases hrs : rs.isEmpty
  · rw [List.isEmpty_iff] at hrs
    subst hrs
    refine ⟨?_, ?_, ?_, ?_, ?_, ?_, ?_⟩ <;>
      simp [aggregateRecords, extractField, emptyMetrics]
  · have hne : rs ≠ [] := fun h => hrs (by rw [h]; rfl)
    simp only [aggregateRecords, if_neg hrs]
    refine ⟨tps_presence _ _ _, tps_presence _ _ _, ?_, ?_,
      single_presence _ _, single_presence _ _, single_presence _ _⟩
    · intro hlen hne'
      exact ⟨tps_value _ _ _ hlen hne', tps_value _ _ _ hlen hne'⟩
    · simpa using hne

/-- A record with a negative wall time paired with a positive token
count. -/
def recNegWall : Record :=
  { choices := some [{ wall_time := some [-1], new_tokens := some [5] }] }

/-- C4 (counterexample): with flattened `wall_time = [-1]` and
`new_tokens = [5]` (equal non-zero lengths), the per-sample ratio the code
produces is 0 — the guard is `wt > 0`, not `wt ≠ 0` — so the derived
average is `some 0`, not the `new_tokens / wall_time = -5` the claim's
ratio rule prescribes for a non-zero wall time. -/
theorem tokens_per_sec_negative_wall_time :
    (aggregateRecords [recNegWall]).avg_tokens_per_sec = some 0
    ∧ (aggregateRecords [recNegWall]).avg_tokens_per_sec
        ≠ some ((5 : ℚ) / (-1 : ℚ)) := by
  have h : (aggregateRecords [recNegWall]).avg_tokens_per_sec = some 0 := by
    norm_num [aggregateRecords, extractField, firstChoice, recNegWall,
      tokensPerSec, emptyMetrics]
  refine ⟨h, ?_⟩
  rw [h]
  intro hc
  have := Option.some.inj hc
  norm_num at this

/-- A record with one positive wall time and token count. -/
def recTps : Record :=
  { choices := some [{ wall_time := some [2], new_tokens := some [6] }] }

/-- Witness for `tokens_per_sec_spec`: with `wall_time = [2]` and
`new_tokens = [6]` both metrics are present and equal 3. -/
theorem tokens_per_sec_spec_witness :
    (aggregateRecords [recTps]).avg_tokens_per_sec = some 3
    ∧ (aggregateRecords [recTps]).max_tokens_per_sec = some 3 := by
  have h := (tokens_per_sec_spec [recTps]).2.2.1
    (by norm_num [extractField, firstChoice, recTps])
    (by norm_num [extractField, firstChoice, recTps])
  refine ⟨h.1.trans ?_, h.2.trans ?_⟩
  · norm_num [extractField, firstChoice, recTps, tokensPerSec]
  · norm_num [extractField, firstChoice, recTps, tokensPerSec, listMax]
